import Mathlib

/-!
Verification of the KGTK Kypher graph-cache core (kgtk/kypher/sqlstore.py and
kgtk/cli/query.py) against its natural-language specification.

Python strings are modelled as lists of characters (a Python `str` is a
sequence of code points).  SQLite scalar values binding the user-defined
functions are modelled by `SqlValue`.  Python exceptions are modelled with
`Except PyErr`.  The persistent SQLite store is modelled by an explicit state
record `StoreState`; environment-dependent quantities (file system contents,
current time, byte growth of the database measured by get_db_size, success of
the two bulk-import paths) are inputs gathered in `Env`.
-/

/-- Python exception classes that the modelled code can raise. -/
inductive PyErr where
  | typeError
  | keyError
  | osError
  | fileNotFound
  | csvImportError
deriving DecidableEq

/-- A scalar value as seen by SQLite user-defined functions: NULL, an
integer, or a text value (a Python string, modelled as a character list).
Floats and blobs are irrelevant to the claims and are omitted; `int` stands
for every non-string value where only the isinstance(x, str) test matters. -/
inductive SqlValue where
  | null
  | int (n : Int)
  | text (s : List Char)
deriving DecidableEq

/-- Python s.startswith(p), on character lists. -/
def startswith (p s : List Char) : Bool :=
  List.isPrefixOf p s

/-- Python s.endswith(p), on character lists. -/
def endswith (p s : List Char) : Bool :=
  List.isSuffixOf p s

/-- The character step of Python ident.replace that doubles a double
quote. -/
def quoteDouble (c : Char) : List Char :=
  if c = '"' then ['"', '"'] else [c]

/-- sql_quote_ident from sqlstore.py: standard SQL identifier quoting, a
double quote on each side with inner double quotes doubled
(ident.replace with two double quotes). -/
def sql_quote_ident (ident : List Char) : List Char :=
  '"' :: ident.flatMap quoteDouble ++ ['"']

/-- kgtk_stringify from sqlstore.py: a string that neither starts nor ends
with a double quote is passed through sql_quote_ident; everything else is
returned unchanged. -/
def kgtk_stringify (x : SqlValue) : SqlValue :=
  match x with
  | .text s =>
      if !(startswith ['"'] s) && !(endswith ['"'] s) then .text (sql_quote_ident s)
      else .text s
  | v => v

/-- kgtk_unstringify from sqlstore.py: a string that starts and ends with a
double quote loses its first and last character (Python x[1:-1]); everything
else is returned unchanged. -/
def kgtk_unstringify (x : SqlValue) : SqlValue :=
  match x with
  | .text s =>
      if startswith ['"'] s && endswith ['"'] s then .text ((s.drop 1).dropLast)
      else .text s
  | v => v

/-- kgtk_lqstring from sqlstore.py: true iff the value is a string starting
with a single quote. -/
def kgtk_lqstring (x : SqlValue) : Bool :=
  match x with
  | .text s => startswith ['\''] s
  | _ => false

/-- kgtk_date from sqlstore.py: true iff the value is a string starting with
a caret. -/
def kgtk_date (x : SqlValue) : Bool :=
  match x with
  | .text s => startswith ['^'] s
  | _ => false

/-- Regular expressions over characters: the fragment (empty word, single
character, concatenation, alternation) needed to model the patterns of the
claims about kgtk_regex. -/
inductive Regex where
  | eps
  | chr (c : Char)
  | seq (r1 r2 : Regex)
  | alt (r1 r2 : Regex)
deriving DecidableEq

/-- All ways the regex can match a prefix of the input, each given by the
remaining suffix, listed in the priority order of a backtracking matcher as
Python re uses it: an alternation tries its left branch first. -/
def rmatches : Regex → List Char → List (List Char)
  | .eps, s => [s]
  | .chr _, [] => []
  | .chr c, a :: rest => if a = c then [rest] else []
  | .seq r1 r2, s => (rmatches r1 s).flatMap (fun s1 => rmatches r2 s1)
  | .alt r1 r2, s => rmatches r1 s ++ rmatches r2 s

/-- Python re.match anchored at position 0: the first match in backtracking
priority order, returned as the remaining (unconsumed) suffix. -/
def pyMatchRest (r : Regex) (s : List Char) : Option (List Char) :=
  (rmatches r s).head?

/-- kgtk_regex from sqlstore.py: m = re.match(pattern, x) on string input,
and the result is m is not None and m.end() == len(x). -/
def kgtk_regex (x : SqlValue) (r : Regex) : Bool :=
  match x with
  | .text s =>
      match pyMatchRest r s with
      | some rest => rest.isEmpty
      | none => false
  | _ => false

/-- Whole-string matching (the semantics of Python re.fullmatch): some way
of matching the regex consumes the entire input. -/
def fullMatch (r : Regex) (s : List Char) : Bool :=
  (rmatches r s).contains []

/-- The concrete pattern a|ab. -/
def patAab : Regex :=
  .alt (.chr 'a') (.seq (.chr 'a') (.chr 'b'))

/-- Digits of a decimal numeral to a natural number (Python int of a digit
string). -/
def digitsToNat (ds : List Char) : Nat :=
  ds.foldl (fun a c => a * 10 + (c.toNat - '0'.toNat)) 0

/-- Take exactly n decimal digits from the front of the input. -/
def takeDigits (n : Nat) (s : List Char) : Option (List Char × List Char) :=
  let pre := s.take n
  if pre.length = n && pre.all Char.isDigit then some (pre, s.drop n) else none

/-- The named groups of a matched KGTK date-and-times literal that the
accessor functions read; a group of an absent optional component is none,
exactly as Python re group access returns None. -/
structure DateGroups where
  year : List Char
  month : Option (List Char)
  day : Option (List Char)
  hour : Option (List Char)
  minutes : Option (List Char)
  seconds : Option (List Char)
  zone : Option (List Char)
  precision : Option (List Char)
deriving DecidableEq

/-- Modelled from the spec: the optional month and day part of a date body,
year(-month(-day)?)? with two-digit month and day. -/
def parseMonthDay (r : List Char) : Option (List Char) × Option (List Char) × List Char :=
  match r with
  | '-' :: r1 =>
      match takeDigits 2 r1 with
      | some (mo, r2) =>
          match r2 with
          | '-' :: r3 =>
              match takeDigits 2 r3 with
              | some (dy, r4) => (some mo, some dy, r4)
              | none => (some mo, none, r2)
          | _ => (some mo, none, r2)
      | none => (none, none, r)
  | _ => (none, none, r)

/-- Modelled from the spec: a time zone designator, Z or a signed two-digit
hour optionally followed by minutes with or without a separating colon. -/
def parseZone (r : List Char) : Option (List Char × List Char) :=
  match r with
  | 'Z' :: rest => some (['Z'], rest)
  | c :: rest =>
      if c = '+' || c = '-' then
        match takeDigits 2 rest with
        | some (hh, r2) =>
            match r2 with
            | ':' :: r3 =>
                match takeDigits 2 r3 with
                | some (mm, r4) => some (c :: hh ++ ':' :: mm, r4)
                | none => some (c :: hh, r2)
            | _ =>
                match takeDigits 2 r2 with
                | some (mm, r4) => some (c :: hh ++ mm, r4)
                | none => some (c :: hh, r2)
        | none => none
      else none
  | [] => none

/-- Modelled from the spec: the optional time part, T hour(:minutes(:seconds)?)?
followed by an optional zone.  Returns the four groups and the rest, or none
when a T is present but not followed by a valid hour (in which case the whole
literal cannot match, since the leftover T can never reach the end anchor). -/
def parseTime (r : List Char) :
    Option (Option (List Char) × Option (List Char) × Option (List Char) ×
            Option (List Char) × List Char) :=
  match r with
  | 'T' :: r1 =>
      match takeDigits 2 r1 with
      | none => none
      | some (hh, r2) =>
          let (mi, se, r3) :=
            match r2 with
            | ':' :: r2a =>
                match takeDigits 2 r2a with
                | some (mm, r2b) =>
                    match r2b with
                    | ':' :: r2c =>
                        match takeDigits 2 r2c with
                        | some (ss, r2d) => (some mm, some ss, r2d)
                        | none => (some mm, none, r2b)
                    | _ => (some mm, none, r2b)
                | none => (none, none, r2)
            | _ => (none, none, r2)
          match parseZone r3 with
          | some (z, r4) => some (some hh, mi, se, some z, r4)
          | none => some (some hh, mi, se, none, r3)
  | _ => some (none, none, none, none, r)

/-- Modelled from the spec: the optional /precision suffix, an integer with
value 0 to 14 written with one or two digits. -/
def parsePrecision (r : List Char) : Option (Option (List Char) × List Char) :=
  match r with
  | '/' :: r1 =>
      let ds := r1.takeWhile Char.isDigit
      if ds.length = 1 || (ds.length = 2 && digitsToNat ds ≤ 14) then
        some (some ds, r1.drop ds.length)
      else none
  | _ => some (none, r)

/-- Modelled from the spec: KgtkValue.lax_date_and_times_re of
kgtk/value/kgtkvalue.py, which is not part of the provided sources.  A KGTK
date literal begins with a caret and its body is a relaxed ISO-8601
date (year, optional month, optional day), an optional time with an optional
zone, and an optional /precision suffix with precision an integer 0 to 14;
the pattern must cover the whole literal. -/
def laxDateMatch (s : List Char) : Option DateGroups :=
  match s with
  | '^' :: rest =>
      match takeDigits 4 rest with
      | none => none
      | some (yy, r1) =>
          let (mo, dy, r2) := parseMonthDay r1
          match parseTime r2 with
          | none => none
          | some (hh, mi, se, zo, r3) =>
              match parsePrecision r3 with
              | none => none
              | some (pr, r4) =>
                  if r4.isEmpty then
                    some ⟨yy, mo, dy, hh, mi, se, zo, pr⟩
                  else none
  | _ => none

/-- kgtk_date_zone from sqlstore.py: on a string input, match the lax date
regex; on a match, return the zone group wrapped in double quotes.  When the
literal matches but has no zone, Python evaluates a concatenation of a string
with None and raises TypeError; when the regex does not match or the input is
not a string, the function falls through and returns None (NULL). -/
def kgtk_date_zone (x : SqlValue) : Except PyErr SqlValue :=
  match x with
  | .text s =>
      match laxDateMatch s with
      | some g =>
          match g.zone with
          | some z => .ok (.text ('"' :: z ++ ['"']))
          | none => .error .typeError
      | none => .ok .null
  | _ => .ok .null

/-- kgtk_date_precision from sqlstore.py: on a string input, match the lax
date regex; on a match, return int applied to the precision group.  When the
literal matches but has no precision, Python evaluates int(None) and raises
TypeError; otherwise a non-match returns None (NULL). -/
def kgtk_date_precision (x : SqlValue) : Except PyErr SqlValue :=
  match x with
  | .text s =>
      match laxDateMatch s with
      | some g =>
          match g.precision with
          | some p => .ok (.int (digitsToNat p))
          | none => .error .typeError
      | none => .ok .null
  | _ => .ok .null

/-- The field transformation of Python csv.writer with the dialect used in
kgtk/cli/query.py (delimiter tab, QUOTE_NONE, quotechar None, lineterminator
a single newline, escapechar backslash): each character equal to the
delimiter, the escape character, or a character of the line terminator is
preceded by the escape character; all other characters, including carriage
return, pass through unchanged. -/
def csvEscapeChar (c : Char) : List Char :=
  if c = '\t' || c = '\n' || c = '\\' then ['\\', c] else [c]

/-- The whole-field escaping of the csv.writer dialect above. -/
def csvEscapeField (f : List Char) : List Char :=
  f.flatMap csvEscapeChar

/-- One output row of the query driver: the escaped fields joined by tabs
and terminated by a single newline (Unix line ending). -/
def csvWriteRow (row : List (List Char)) : List Char :=
  (List.intercalate ['\t'] (row.map csvEscapeField)) ++ ['\n']

/-- The streamed output of the query driver in kgtk/cli/query.py: the header
row first unless no_header is set, then every result row, each written by
csvWriteRow. -/
def csvOutput (noHeader : Bool) (header : List (List Char))
    (rows : List (List (List Char))) : List Char :=
  (if noHeader then [] else csvWriteRow header) ++ rows.flatMap csvWriteRow

/-- The escaping that the spec describes for a field: tab, newline, carriage
return and backslash are each backslash-escaped.  Stated from the words of
the spec, to be compared with csvEscapeField, the behavior of the code. -/
def specEscapeField (f : List Char) : List Char :=
  f.flatMap (fun c => if c = '\t' || c = '\n' || c = '\r' || c = '\\' then ['\\', c] else [c])

/-- A field is well escaped when every tab, newline or backslash in it
occurs as the second character of an escape pair. -/
def escOk : List Char → Bool
  | [] => true
  | [c] => !(c = '\t' || c = '\n' || c = '\\')
  | c1 :: c2 :: rest =>
      if c1 = '\\' then escOk rest
      else !(c1 = '\t' || c1 = '\n' || c1 = '\\') && escOk (c2 :: rest)

/-- The reader's inverse of backslash escaping: a backslash makes the next
character literal. -/
def unescapeField : List Char → List Char
  | [] => []
  | [c] => [c]
  | c1 :: c2 :: rest =>
      if c1 = '\\' then c2 :: unescapeField rest
      else c1 :: unescapeField (c2 :: rest)

/-- Lookup in an association list keyed by strings, the first binding wins
(sqlite rows with a unique key column). -/
def alookup {α : Type} (k : String) : List (String × α) → Option α
  | [] => none
  | (k1, v) :: rest => if k1 = k then some v else alookup k rest

/-- Remove every binding of a key (DELETE FROM table WHERE key = value). -/
def aremove {α : Type} (k : String) (l : List (String × α)) : List (String × α) :=
  l.filter (fun p => !(p.1 = k : Bool))

/-- Update the first binding of a key in place (UPDATE table SET columns
WHERE key = value, on a table whose key column is unique). -/
def aupdate {α : Type} (k : String) (f : α → α) : List (String × α) → List (String × α)
  | [] => []
  | (k1, v) :: rest => if k1 = k then (k1, f v) :: rest else (k1, v) :: aupdate k f rest

/-- One row of the fileinfo table of sqlstore.py, without its key column
(the real path of the file).  modtime is a FLOAT in the store and is
modelled as an integer timestamp, which preserves the equality tests the
code performs on it. -/
structure FileInfoRec where
  size : Option Int
  modtime : Option Int
  md5sum : Option (List Char)
  graph : Option String
deriving DecidableEq

/-- One row of the graphinfo table of sqlstore.py, without its key column
(the graph table name).  The header column holds str(header) in the store
and eval restores the list, so it is modelled as the column-name list
itself. -/
structure GraphInfoRec where
  shasum : Option (List Char)
  header : Option (List String)
  size : Option Int
  acctime : Option Int
deriving DecidableEq

/-- The data of one graph table: its column names in order (the parsed
source header line; every column has SQL type TEXT, so cells are plain
strings) and its rows in import order. -/
structure GraphData where
  header : List String
  rows : List (List String)
deriving DecidableEq

/-- The state of the sqlite store as the modelled operations see it: the
graph tables, the secondary indexes (name and owning table, both listed in
sqlite_master), the set of index names an ANALYZE statement has been run on,
the two metadata tables, and the allocated-page byte size that get_db_size
reports. -/
structure StoreState where
  graphs : List (String × GraphData)
  indexes : List (String × String)
  analyzed : List String
  fileinfo : List (String × FileInfoRec)
  graphinfo : List (String × GraphInfoRec)
  dbsize : Int
deriving DecidableEq

/-- The contents and stat data of one source file: byte size, modification
time, and its parsed tabular content (header line and data rows). -/
structure FileData where
  size : Int
  modtime : Int
  header : List String
  rows : List (List String)
deriving DecidableEq

/-- Outcome of the native bulk-import path (import_graph_data_via_import):
it succeeds, or raises sh.CommandNotFound because a needed executable is
missing, or raises KGTKException because the path cannot handle this OS,
file or input.  These two exception classes are exactly the ones the except
clause of add_graph catches. -/
inductive NativeResult where
  | ok
  | engineNotAvailable
  | engineRejectedInput
deriving DecidableEq

/-- Outcome of the fallback parsed-insert path (import_graph_data_via_csv). -/
inductive CsvResult where
  | ok
  | err
deriving DecidableEq

/-- The environment of one add_graph call: the file system (realpath
resolution and per-real-path file data), the clock, the database growth
an import causes as measured by get_db_size, and the outcomes of the
two import paths. -/
structure Env where
  realpath : String → String
  files : List (String × FileData)
  now : Int
  growth : Int
  native : NativeResult
  csv : CsvResult

/-- os.path stat access for a file: the OS resolves the path, so the data is
that of the real path. -/
def getFileData (env : Env) (file : String) : Option FileData :=
  alookup (env.realpath file) env.files

/-- has_table of sqlstore.py: a row of sqlite_master carries this name; the
master table lists the graph tables, the indexes, and the two metadata
tables. -/
def has_table (s : StoreState) (name : String) : Bool :=
  (alookup name s.graphs).isSome || s.indexes.any (fun p => p.1 = name) ||
  name = "fileinfo" || name = "graphinfo"

/-- The machine-generated name of graph number n. -/
def graph_name (n : Nat) : String :=
  "graph_" ++ toString n

/-- The while loop of new_graph_table: starting at k, return the first
number whose graph name is not taken.  The loop of the source has no fuel;
the fuel here only bounds the search and is chosen large enough that a free
name is always within reach. -/
def findFree (taken : Nat → Bool) : Nat → Nat → Nat
  | k, 0 => k
  | k, fuel + 1 => if taken k then findFree taken (k + 1) fuel else k

/-- number_of_graphs of sqlstore.py: the row count of the graphinfo table. -/
def number_of_graphs (s : StoreState) : Nat :=
  s.graphinfo.length

/-- The search bound used to run the allocation loop: more candidates than
there are names in sqlite_master. -/
def fuelOf (s : StoreState) : Nat :=
  s.graphs.length + s.indexes.length + 3

/-- new_graph_table of sqlstore.py: start at number_of_graphs() + 1 and
probe upward for a graph name that is not a table yet. -/
def new_graph_table (s : StoreState) : String :=
  graph_name (findFree (fun n => has_table s (graph_name n)) (number_of_graphs s + 1) (fuelOf s))

/-- get_index_name of sqlstore.py: the global name of the index for a column
on a table. -/
def get_index_name (table column : String) : String :=
  table ++ "_" ++ column ++ "_idx"

/-- has_index of sqlstore.py: keys in on the derived index name in
sqlite_master. -/
def has_index (s : StoreState) (table column : String) : Bool :=
  has_table s (get_index_name table column)

/-- set_file_info of sqlstore.py (via set_record_info): insert a fresh row
when the key is absent (columns not provided stay NULL), update the provided
columns in place when it is present (md5sum keeps its old value). -/
def set_file_info (key : String) (size modtime : Int) (graph : String)
    (fi : List (String × FileInfoRec)) : List (String × FileInfoRec) :=
  if (alookup key fi).isSome then
    aupdate key
      (fun old => { old with size := some size, modtime := some modtime, graph := some graph }) fi
  else
    fi ++ [(key, ⟨some size, some modtime, none, some graph⟩)]

/-- set_graph_info of sqlstore.py (via set_record_info): insert a fresh row
when the key is absent, update the provided columns in place when it is
present (shasum keeps its old value). -/
def set_graph_info (key : String) (header : List String) (size acctime : Int)
    (gi : List (String × GraphInfoRec)) : List (String × GraphInfoRec) :=
  if (alookup key gi).isSome then
    aupdate key
      (fun old => { old with header := some header, size := some size, acctime := some acctime }) gi
  else
    gi ++ [(key, ⟨none, some header, some size, some acctime⟩)]

/-- ensure_graph_index of sqlstore.py with explain False: read the graph
schema from graphinfo (an absent record or header fails like the source
does), fail with KeyError when the column is not one of the schema columns,
do nothing when the derived index name already exists, and otherwise create
the index, run ANALYZE on it unconditionally, and add the measured byte-size
delta of the database to the size field of the graphinfo record. -/
def ensure_graph_index (growth : Int) (table column : String) (s : StoreState) :
    Except PyErr StoreState :=
  match alookup table s.graphinfo with
  | none => .error .typeError
  | some grec =>
      match grec.header with
      | none => .error .typeError
      | some hdr =>
          if !(hdr.contains column) then .error .keyError
          else if has_index s table column then .ok s
          else
            match grec.size with
            | none => .error .typeError
            | some z =>
                let idxname := get_index_name table column
                let s1 : StoreState :=
                  { s with indexes := (idxname, table) :: s.indexes,
                           dbsize := s.dbsize + growth,
                           analyzed := idxname :: s.analyzed }
                let idxsize := s1.dbsize - s.dbsize
                .ok { s1 with
                      graphinfo := aupdate table (fun old => { old with size := some (z + idxsize) })
                                     s1.graphinfo }

/-- drop_graph of sqlstore.py: delete every fileinfo row whose graph column
holds this table, delete the graphinfo record, and drop the table itself
when it exists, which also drops its indexes. -/
def drop_graph (table : String) (s : StoreState) : StoreState :=
  let s2 : StoreState :=
    { s with fileinfo := s.fileinfo.filter (fun p => !(p.2.graph = some table : Bool)),
             graphinfo := aremove table s.graphinfo }
  if has_table s2 table then
    { s2 with graphs := aremove table s2.graphs,
              indexes := s2.indexes.filter (fun p => !(p.2 = table : Bool)) }
  else s2

/-- has_graph of sqlstore.py: the file is imported and up to date when a
fileinfo record exists under its real path and the recorded size and modtime
both equal the current stat values (md5sum is not checked); reading the stat
values of a vanished file raises OSError. -/
def has_graph (env : Env) (s : StoreState) (file : String) : Except PyErr Bool :=
  match alookup (env.realpath file) s.fileinfo with
  | none => .ok false
  | some info =>
      match getFileData env file with
      | none => .error .osError
      | some fd =>
          if !(info.size = some fd.size : Bool) then .ok false
          else if !(info.modtime = some fd.modtime : Bool) then .ok false
          else .ok true

/-- The freshness test of has_graph as a boolean of the state: a fileinfo
record for the real path of the file exists and its size and modtime both
match the file data. -/
def fileinfo_matches (env : Env) (s : StoreState) (file : String) (fd : FileData) : Bool :=
  match alookup (env.realpath file) s.fileinfo with
  | some info => (info.size = some fd.size : Bool) && (info.modtime = some fd.modtime : Bool)
  | none => false

/-- The stale-data removal step of add_graph: when an earlier version of the
file is in the store, drop the graph data its fileinfo record points to (a
NULL graph column matches nothing, so dropping it is a no-op). -/
def drop_stale (env : Env) (file : String) (s : StoreState) : StoreState :=
  match alookup (env.realpath file) s.fileinfo with
  | some info =>
      match info.graph with
      | some g => drop_graph g s
      | none => s
  | none => s

/-- The creation a successful import performs: the graph table appears with
the parsed header of the file as its column list (every column typed TEXT)
and the file rows in order, and the database grows. -/
def create_graph_table (env : Env) (table : String) (fd : FileData) (s : StoreState) :
    StoreState :=
  { s with graphs := (table, ⟨fd.header, fd.rows⟩) :: s.graphs,
           dbsize := s.dbsize + env.growth }

/-- add_graph of sqlstore.py: return at once when has_graph holds; otherwise
drop stale data, allocate a fresh graph table name, import the file (the
native path first; on KGTKException or sh.CommandNotFound fall back on the
parsed-insert path, whose own failure propagates; both catchable native
failures occur before the native path creates the table), then record the
fileinfo row (current size and modtime, the new table) and the graphinfo row
(the table header, the measured database growth, the access time). -/
def add_graph (env : Env) (file : String) (s : StoreState) : Except PyErr StoreState :=
  match has_graph env s file with
  | .error e => .error e
  | .ok true => .ok s
  | .ok false =>
      let s1 := drop_stale env file s
      let table := new_graph_table s1
      match getFileData env file with
      | none => .error .fileNotFound
      | some fd =>
          let imported : Option StoreState :=
            match env.native with
            | .ok => some (create_graph_table env table fd s1)
            | _ =>
                match env.csv with
                | .ok => some (create_graph_table env table fd s1)
                | .err => none
          match imported with
          | none => .error .csvImportError
          | some s2 =>
              let graphsize := s2.dbsize - s1.dbsize
              let header := ((alookup table s2.graphs).map (fun g => g.header)).getD []
              let s3 : StoreState :=
                { s2 with fileinfo := set_file_info (env.realpath file) fd.size fd.modtime table
                            s2.fileinfo }
              .ok { s3 with graphinfo := set_graph_info table header graphsize env.now
                              s3.graphinfo }

theorem alookup_cons_self {α : Type} (k : String) (v : α) (l : List (String × α)) :
    alookup k ((k, v) :: l) = some v := by
  simp [alookup]

theorem alookup_cons_ne {α : Type} (k k1 : String) (v : α) (l : List (String × α))
    (h : k1 ≠ k) : alookup k ((k1, v) :: l) = alookup k l := by
  simp [alookup, h]

theorem alookup_aremove_self {α : Type} (k : String) (l : List (String × α)) :
    alookup k (aremove k l) = none := by
  induction l with
  | nil => rfl
  | cons p rest ih =>
      by_cases h : p.1 = k
      · simpa [aremove, List.filter, h] using ih
      · simpa [aremove, List.filter, h, alookup, Ne.symm h] using ih

theorem alookup_append_of_none {α : Type} (k : String) (l1 l2 : List (String × α))
    (h : alookup k l1 = none) : alookup k (l1 ++ l2) = alookup k l2 := by
  induction l1 with
  | nil => rfl
  | cons p rest ih =>
      obtain ⟨k1, v⟩ := p
      by_cases hp : k1 = k
      · simp [alookup, hp] at h
      · simp only [List.cons_append, alookup, if_neg hp] at h ⊢
        exact ih h

theorem alookup_aupdate_self {α : Type} (k : String) (f : α → α) (l : List (String × α)) :
    alookup k (aupdate k f l) = (alookup k l).map f := by
  induction l with
  | nil => rfl
  | cons p rest ih =>
      obtain ⟨k1, v⟩ := p
      by_cases h : k1 = k
      · subst h
        simp [aupdate, alookup]
      · simp [aupdate, alookup, h, ih]

theorem alookup_set_file_info (key : String) (size modtime : Int) (graph : String)
    (fi : List (String × FileInfoRec)) :
    ∃ rec, alookup key (set_file_info key size modtime graph fi) = some rec ∧
      rec.size = some size ∧ rec.modtime = some modtime ∧ rec.graph = some graph := by
  unfold set_file_info
  cases h : alookup key fi with
  | none =>
      refine ⟨⟨some size, some modtime, none, some graph⟩, ?_, rfl, rfl, rfl⟩
      simp only [h, Option.isSome_none, Bool.false_eq_true, if_false]
      rw [alookup_append_of_none key fi _ h]
      exact alookup_cons_self key _ []
  | some old =>
      refine ⟨{ old with size := some size, modtime := some modtime, graph := some graph },
        ?_, rfl, rfl, rfl⟩
      simp only [h, Option.isSome_some, if_true]
      rw [alookup_aupdate_self key _ fi, h]
      rfl

theorem alookup_set_graph_info (key : String) (header : List String) (size acctime : Int)
    (gi : List (String × GraphInfoRec)) :
    ∃ rec, alookup key (set_graph_info key header size acctime gi) = some rec ∧
      rec.header = some header ∧ rec.size = some size ∧ rec.acctime = some acctime := by
  unfold set_graph_info
  cases h : alookup key gi with
  | none =>
      refine ⟨⟨none, some header, some size, some acctime⟩, ?_, rfl, rfl, rfl⟩
      simp only [h, Option.isSome_none, Bool.false_eq_true, if_false]
      rw [alookup_append_of_none key gi _ h]
      exact alookup_cons_self key _ []
  | some old =>
      refine ⟨{ old with header := some header, size := some size, acctime := some acctime },
        ?_, rfl, rfl, rfl⟩
      simp only [h, Option.isSome_some, if_true]
      rw [alookup_aupdate_self key _ gi, h]
      rfl

theorem has_graph_eq (env : Env) (s : StoreState) (file : String) (fd : FileData)
    (hfd : getFileData env file = some fd) :
    has_graph env s file = .ok (fileinfo_matches env s file fd) := by
  unfold has_graph fileinfo_matches
  cases h : alookup (env.realpath file) s.fileinfo with
  | none => rfl
  | some info =>
      rw [hfd]
      by_cases hs : info.size = some fd.size
      · by_cases hm : info.modtime = some fd.modtime
        · simp [hs, hm]
        · simp [hs, hm]
      · simp [hs]

theorem flatMap_quoteDouble_id (s : List Char) (h : '"' ∉ s) : s.flatMap quoteDouble = s := by
  induction s with
  | nil => rfl
  | cons c rest ih =>
      rw [List.flatMap_cons]
      have hc : c ≠ '"' := by
        intro e
        exact h (e ▸ List.mem_cons_self c rest)
      rw [ih (fun m => h (List.mem_cons_of_mem c m))]
      simp [quoteDouble, hc]

theorem escOk_escape_pair (c : Char) (l : List Char) : escOk ('\\' :: c :: l) = escOk l := by
  simp [escOk]

theorem escOk_cons_plain (c : Char) (l : List Char)
    (h : (c = '\t' || c = '\n' || c = '\\') = false) : escOk (c :: l) = escOk l := by
  simp only [Bool.or_eq_false_iff, decide_eq_false_iff_not] at h
  obtain ⟨⟨h1, h2⟩, h3⟩ := h
  cases l with
  | nil => simp [escOk, h1, h2, h3]
  | cons d rest => simp [escOk, h1, h2, h3]

theorem escOk_csvEscapeField (f : List Char) : escOk (csvEscapeField f) = true := by
  induction f with
  | nil => rfl
  | cons c rest ih =>
      simp only [csvEscapeField, List.flatMap_cons] at ih ⊢
      by_cases h : (c = '\t' || c = '\n' || c = '\\') = true
      · simp only [csvEscapeChar, h, if_true, List.cons_append, List.nil_append]
        rw [escOk_escape_pair]
        exact ih
      · have h2 : (c = '\t' || c = '\n' || c = '\\') = false := by
          revert h
          cases (c = '\t' || c = '\n' || c = '\\') <;> simp
        rw [show csvEscapeChar c = [c] from by simp [csvEscapeChar, h2]]
        rw [List.singleton_append, escOk_cons_plain c _ h2]
        exact ih

theorem unescape_pair (c : Char) (l : List Char) :
    unescapeField ('\\' :: c :: l) = c :: unescapeField l := by
  simp [unescapeField]

theorem unescape_cons_plain (c : Char) (l : List Char) (h : c ≠ '\\') :
    unescapeField (c :: l) = c :: unescapeField l := by
  cases l with
  | nil => simp [unescapeField]
  | cons d rest => simp [unescapeField, h]

theorem unescape_csvEscapeField (f : List Char) : unescapeField (csvEscapeField f) = f := by
  induction f with
  | nil => rfl
  | cons c rest ih =>
      simp only [csvEscapeField, List.flatMap_cons] at ih ⊢
      by_cases h : (c = '\t' || c = '\n' || c = '\\') = true
      · simp only [csvEscapeChar, h, if_true, List.cons_append, List.nil_append]
        rw [unescape_pair, ih]
      · have h2 : (c = '\t' || c = '\n' || c = '\\') = false := by
          revert h
          cases (c = '\t' || c = '\n' || c = '\\') <;> simp
        have h3 : c ≠ '\\' := by
          simp only [Bool.or_eq_false_iff, decide_eq_false_iff_not] at h2
          exact h2.2
        rw [show csvEscapeChar c = [c] from by simp [csvEscapeChar, h2]]
        rw [List.singleton_append, unescape_cons_plain c _ h3, ih]

theorem startswith_single (a c : Char) (rest : List Char) :
    startswith [a] (c :: rest) = (a == c) := by
  simp [startswith, List.isPrefixOf]

/-- C10: the literal-class predicates decide membership by prefix alone:
kgtk_lqstring is true on a string exactly when its first character is a
single quote, and kgtk_date exactly when its first character is a caret,
whatever the rest of the string looks like. -/
theorem kgtk_literal_class_prefix (v : List Char) :
    (kgtk_lqstring (.text v) = true ↔ v.head? = some '\'') ∧
    (kgtk_date (.text v) = true ↔ v.head? = some '^') := by
  cases v with
  | nil =>
      constructor <;> simp [kgtk_lqstring, kgtk_date, startswith, List.isPrefixOf]
  | cons c rest =>
      constructor
      · show startswith ['\''] (c :: rest) = true ↔ (c :: rest).head? = some '\''
        rw [startswith_single]
        simp only [beq_iff_eq, List.head?_cons, Option.some.injEq]
        exact eq_comm
      · show startswith ['^'] (c :: rest) = true ↔ (c :: rest).head? = some '^'
        rw [startswith_single]
        simp only [beq_iff_eq, List.head?_cons, Option.some.injEq]
        exact eq_comm

/-- C7: the claimed whole-string semantics of kgtk_regex fails on the
pattern a|ab and the input ab: the whole input matches the pattern (the
right alternative consumes it entirely), yet kgtk_regex returns false,
because the leftmost match of Python re.match is the alternative a and only
that single match is tested against the end of the string. -/
theorem kgtk_regex_not_whole_match :
    fullMatch patAab ['a', 'b'] = true ∧
    kgtk_regex (.text ['a', 'b']) patAab = false := by
  decide

/-- C6: on the valid date literal without zone and precision components the
zone and precision accessors raise TypeError instead of returning null: the
literal is recognized by the class predicate and matched by the lax date
pattern, but the zone group is absent, so the code concatenates a string
with None (and int(None) for the precision).  On a literal carrying the
components, the accessors return them. -/
theorem kgtk_date_accessor_raises :
    kgtk_date (.text ['^', '2', '0', '2', '0', '-', '0', '1', '-', '0', '1']) = true ∧
    (laxDateMatch ['^', '2', '0', '2', '0', '-', '0', '1', '-', '0', '1']).isSome = true ∧
    kgtk_date_zone (.text ['^', '2', '0', '2', '0', '-', '0', '1', '-', '0', '1']) =
      .error .typeError ∧
    kgtk_date_precision (.text ['^', '2', '0', '2', '0', '-', '0', '1', '-', '0', '1']) =
      .error .typeError ∧
    kgtk_date_zone (.text "^2020-10-30T02:03:57+10:30/9".data) =
      .ok (.text ('"' :: "+10:30".data ++ ['"'])) ∧
    kgtk_date_precision (.text "^2020-10-30T02:03:57+10:30/9".data) = .ok (.int 9) := by
  exact ⟨by decide, by decide, rfl, rfl, rfl, rfl⟩

/-- C9 counterexample: a string with an interior double quote that neither
starts nor ends with a double quote is not returned as itself wrapped in one
leading and one trailing quote; the interior quote is doubled. -/
theorem kgtk_stringify_quote_doubling_cex :
    startswith ['"'] ['a', '"', 'b'] = false ∧
    endswith ['"'] ['a', '"', 'b'] = false ∧
    kgtk_stringify (.text ['a', '"', 'b']) = .text ['"', 'a', '"', '"', 'b', '"'] ∧
    kgtk_stringify (.text ['a', '"', 'b']) ≠ .text ('"' :: ['a', '"', 'b'] ++ ['"']) := by
  refine ⟨by decide, by decide, by decide, ?_⟩
  intro h
  rw [show kgtk_stringify (.text ['a', '"', 'b']) = .text ['"', 'a', '"', '"', 'b', '"'] from by decide] at h
  cases h

/-- C9 amended: kgtk_stringify wraps a string that neither starts nor ends
with a double quote in one leading and one trailing quote while doubling
every interior double quote (so the characters stay unchanged exactly when
the string holds no double quote); any other string is returned unchanged;
and kgtk_unstringify removes exactly the surrounding quotes from a string
that starts and ends with a double quote. -/
theorem kgtk_stringify_unstringify_amended :
    (∀ s : List Char, startswith ['"'] s = false → endswith ['"'] s = false →
      kgtk_stringify (.text s) = .text ('"' :: s.flatMap quoteDouble ++ ['"'])) ∧
    (∀ s : List Char, startswith ['"'] s = false → endswith ['"'] s = false → '"' ∉ s →
      kgtk_stringify (.text s) = .text ('"' :: s ++ ['"'])) ∧
    (∀ s : List Char, startswith ['"'] s = true ∨ endswith ['"'] s = true →
      kgtk_stringify (.text s) = .text s) ∧
    (∀ s : List Char, startswith ['"'] s = true → endswith ['"'] s = true →
      kgtk_unstringify (.text s) = .text ((s.drop 1).dropLast)) := by
  refine ⟨?_, ?_, ?_, ?_⟩
  · intro s h1 h2
    simp [kgtk_stringify, sql_quote_ident, h1, h2]
  · intro s h1 h2 h3
    simp [kgtk_stringify, sql_quote_ident, h1, h2, flatMap_quoteDouble_id s h3]
  · intro s h
    rcases h with h | h <;> simp [kgtk_stringify, h]
  · intro s h1 h2
    simp [kgtk_unstringify, h1, h2]

/-- C8 counterexample: a carriage return inside a field value is not
backslash-escaped by the output writer; the escaping the spec describes
would escape it. -/
theorem csv_escape_cr_cex :
    csvEscapeField ['a', '\r', 'b'] = ['a', '\r', 'b'] ∧
    specEscapeField ['a', '\r', 'b'] = ['a', '\\', '\r', 'b'] ∧
    csvEscapeField ['a', '\r', 'b'] ≠ specEscapeField ['a', '\r', 'b'] := by
  refine ⟨by decide, by decide, by decide⟩

/-- C8 amended: in the streamed output every tab, newline and backslash
inside a field value is backslash-escaped (carriage return passes through
unescaped), the escaping loses no information, every row is terminated with
a single Unix newline, no quoting is applied, and the first row is the
computed result header unless header suppression is requested. -/
theorem csv_output_amended :
    (∀ f : List Char, escOk (csvEscapeField f) = true) ∧
    (∀ f : List Char, unescapeField (csvEscapeField f) = f) ∧
    csvEscapeField ['\r'] = ['\r'] ∧
    (∀ row : List (List Char), (csvWriteRow row).getLast? = some '\n') ∧
    (∀ header : List (List Char), ∀ rows : List (List (List Char)),
      csvOutput false header rows = csvWriteRow header ++ rows.flatMap csvWriteRow) ∧
    (∀ header : List (List Char), ∀ rows : List (List (List Char)),
      csvOutput true header rows = rows.flatMap csvWriteRow) := by
  refine ⟨escOk_csvEscapeField, unescape_csvEscapeField, by decide, ?_, ?_, ?_⟩
  · intro row
    exact List.getLast?_concat _
  · intro header rows
    rfl
  · intro header rows
    rfl

/-- An empty example graph table. -/
def gdEmpty : GraphData :=
  ⟨["id", "node1", "label", "node2"], []⟩

/-- An example graphinfo record. -/
def grEmpty : GraphInfoRec :=
  ⟨none, some ["id", "node1", "label", "node2"], some 0, some 0⟩

/-- A reachable store state with a gap: graph_1 has been dropped while
graph_2 and graph_3 remain (add three files, then drop the first), so
graphinfo holds two records yet the name graph_1 is free. -/
def stateGap : StoreState :=
  { graphs := [("graph_2", gdEmpty), ("graph_3", gdEmpty)],
    indexes := [],
    analyzed := [],
    fileinfo := [],
    graphinfo := [("graph_2", grEmpty), ("graph_3", grEmpty)],
    dbsize := 0 }

/-- C4 counterexample: in stateGap the allocation loop starts at
number_of_graphs() + 1 = 3 and returns graph_4, although no table named
graph_1 exists, so the chosen N is not the smallest positive integer whose
graph name is free. -/
theorem new_graph_table_gap_cex :
    new_graph_table stateGap = "graph_4" ∧
    has_table stateGap "graph_1" = false ∧
    ("graph_4" : String) ≠ "graph_1" := by
  refine ⟨by decide, by decide, by decide⟩

theorem findFree_spec (taken : Nat → Bool) (fuel k n : Nat)
    (hk : k ≤ n) (hn : n < k + fuel) (hfree : taken n = false) :
    k ≤ findFree taken k fuel ∧ taken (findFree taken k fuel) = false ∧
    ∀ j, k ≤ j → j < findFree taken k fuel → taken j = true := by
  induction fuel generalizing k with
  | zero => omega
  | succ fuel ih =>
      by_cases h : taken k = true
      · have hkn : k ≠ n := by
          intro e
          rw [e, hfree] at h
          cases h
        have h1 : k + 1 ≤ n := by omega
        have h2 : n < (k + 1) + fuel := by omega
        obtain ⟨a, b, c⟩ := ih (k + 1) h1 h2
        have hrw : findFree taken k (fuel + 1) = findFree taken (k + 1) fuel := by
          simp [findFree, h]
        refine ⟨?_, ?_, ?_⟩
        · rw [hrw]; omega
        · rw [hrw]; exact b
        · intro j hj1 hj2
          rw [hrw] at hj2
          by_cases hjk : j = k
          · rw [hjk]; exact h
          · exact c j (by omega) hj2
      · have hrw : findFree taken k (fuel + 1) = k := by
          simp [findFree]
          intro hc
          exact absurd hc h
        refine ⟨by rw [hrw], ?_, ?_⟩
        · rw [hrw]
          revert h
          cases taken k <;> simp
        · intro j hj1 hj2
          rw [hrw] at hj2
          omega

/-- C4 amended: the chosen name is graph_N where N is the smallest integer
greater than or equal to number_of_graphs() + 1 such that no table named
graph_N currently exists; after deletions this need not be the smallest
positive unused integer. -/
theorem new_graph_table_amended (s : StoreState) (n : Nat)
    (h1 : number_of_graphs s + 1 ≤ n)
    (h2 : n < number_of_graphs s + 1 + fuelOf s)
    (h3 : has_table s (graph_name n) = false) :
    ∃ m, new_graph_table s = graph_name m ∧
      number_of_graphs s + 1 ≤ m ∧
      has_table s (graph_name m) = false ∧
      ∀ j, number_of_graphs s + 1 ≤ j → j < m → has_table s (graph_name j) = true := by
  obtain ⟨a, b, c⟩ :=
    findFree_spec (fun i => has_table s (graph_name i)) (fuelOf s)
      (number_of_graphs s + 1) n h1 h2 h3
  exact ⟨_, rfl, a, b, c⟩

/-- C4 witness: the amended statement evaluated at the concrete gap state,
where the loop returns graph_4, the free number at or above the start
position 3 with 3 itself taken. -/
theorem new_graph_table_amended_witness :
    ∃ m, new_graph_table stateGap = graph_name m ∧
      number_of_graphs stateGap + 1 ≤ m ∧
      has_table stateGap (graph_name m) = false ∧
      ∀ j, number_of_graphs stateGap + 1 ≤ j → j < m →
        has_table stateGap (graph_name j) = true :=
  new_graph_table_amended stateGap 4 (by decide) (by decide) (by decide)

/-- C3: with a stored schema for the graph table (a graphinfo record with a
header containing the column and a recorded size), ensure_graph_index is a
no-op when the index named table_column_idx already exists; otherwise it
creates the index under exactly that derived name, runs ANALYZE on it
unconditionally, and adds the measured byte-size delta of the database to
the graphinfo size record. -/
theorem ensure_graph_index_spec (growth : Int) (table column : String) (s : StoreState)
    (grec : GraphInfoRec) (hdr : List String) (z : Int)
    (hg : alookup table s.graphinfo = some grec)
    (hh : grec.header = some hdr)
    (hc : hdr.contains column = true)
    (hz : grec.size = some z) :
    (has_index s table column = true → ensure_graph_index growth table column s = .ok s) ∧
    (has_index s table column = false →
      ∃ s2, ensure_graph_index growth table column s = .ok s2 ∧
        s2.indexes = (get_index_name table column, table) :: s.indexes ∧
        s2.analyzed = get_index_name table column :: s.analyzed ∧
        s2.dbsize = s.dbsize + growth ∧
        alookup table s2.graphinfo = some { grec with size := some (z + growth) }) := by
  have hmem : column ∈ hdr := by
    simpa using hc
  constructor
  · intro hidx
    unfold ensure_graph_index
    simp [hg, hh, hc, hidx, hmem]
  · intro hidx
    unfold ensure_graph_index
    simp [hg, hh, hc, hidx, hz, hmem]
    rw [alookup_aupdate_self, hg]
    simp [hh]

theorem alookup_graphs_of_not_has_table (s : StoreState) (g : String)
    (h : has_table s g = false) : alookup g s.graphs = none := by
  unfold has_table at h
  simp only [Bool.or_eq_false_iff] at h
  obtain ⟨⟨⟨h1, _⟩, _⟩, _⟩ := h
  cases halo : alookup g s.graphs with
  | none => rfl
  | some v =>
      rw [halo] at h1
      simp at h1

theorem alookup_graphs_drop_graph_self (g : String) (s : StoreState) :
    alookup g (drop_graph g s).graphs = none := by
  simp only [drop_graph]
  split
  · exact alookup_aremove_self g _
  · next h =>
      exact alookup_graphs_of_not_has_table _ g (by simpa using h)

theorem add_graph_fresh_eq (env : Env) (s : StoreState) (file : String) (fd : FileData)
    (hfd : getFileData env file = some fd)
    (hmatch : fileinfo_matches env s file fd = true) :
    add_graph env file s = .ok s := by
  unfold add_graph
  rw [has_graph_eq env s file fd hfd, hmatch]

/-- The state a successful non-fresh add_graph run produces, written as the
composition of its steps: drop stale data, allocate the table name, create
the new table, then record the fileinfo and graphinfo rows. -/
def import_result (env : Env) (file : String) (fd : FileData) (s : StoreState) : StoreState :=
  let s1 := drop_stale env file s
  let table := new_graph_table s1
  let s2 := create_graph_table env table fd s1
  let s3 : StoreState :=
    { s2 with fileinfo := set_file_info (env.realpath file) fd.size fd.modtime table s2.fileinfo }
  { s3 with graphinfo :=
      set_graph_info table fd.header (s2.dbsize - s1.dbsize) env.now s3.graphinfo }

theorem add_graph_run (env : Env) (s : StoreState) (file : String) (fd : FileData)
    (hfd : getFileData env file = some fd)
    (hmatch : fileinfo_matches env s file fd = false)
    (himp : env.native = .ok ∨ env.csv = .ok) :
    add_graph env file s = .ok (import_result env file fd s) := by
  unfold add_graph import_result
  rw [has_graph_eq env s file fd hfd, hmatch]
  cases hnat : env.native with
  | ok =>
      simp only [hfd, create_graph_table, alookup_cons_self]
      rfl
  | engineNotAvailable =>
      have hcsv : env.csv = .ok := by
        rcases himp with h | h
        · rw [hnat] at h
          cases h
        · exact h
      simp only [hfd, hcsv, create_graph_table, alookup_cons_self]
      rfl
  | engineRejectedInput =>
      have hcsv : env.csv = .ok := by
        rcases himp with h | h
        · rw [hnat] at h
          cases h
        · exact h
      simp only [hfd, hcsv, create_graph_table, alookup_cons_self]
      rfl

/-- C1: ensure semantics of the cache.  When a fileinfo record for the real
path of the file exists and its recorded size and modtime both match the
file, add_graph returns with the store unchanged (no re-import); otherwise,
provided one of the two import paths succeeds, any stale graph table
recorded for that path is dropped, the file is imported into a fresh graph
table holding the source header as its columns (all typed as text in the
model) with the rows in source order, and fileinfo and graphinfo records for
the new table are written. -/
theorem add_graph_ensure_spec (env : Env) (s : StoreState) (file : String) (fd : FileData)
    (hfd : getFileData env file = some fd)
    (himp : env.native = .ok ∨ env.csv = .ok) :
    (fileinfo_matches env s file fd = true → add_graph env file s = .ok s) ∧
    (fileinfo_matches env s file fd = false →
      ∃ s2, add_graph env file s = .ok s2 ∧
        alookup (new_graph_table (drop_stale env file s)) s2.graphs =
          some ⟨fd.header, fd.rows⟩ ∧
        (∀ info, alookup (env.realpath file) s.fileinfo = some info →
          ∀ g, info.graph = some g → g ≠ new_graph_table (drop_stale env file s) →
            alookup g s2.graphs = none) ∧
        (∃ rec, alookup (env.realpath file) s2.fileinfo = some rec ∧
          rec.size = some fd.size ∧ rec.modtime = some fd.modtime ∧
          rec.graph = some (new_graph_table (drop_stale env file s))) ∧
        (∃ grec, alookup (new_graph_table (drop_stale env file s)) s2.graphinfo = some grec ∧
          grec.header = some fd.header ∧ grec.size = some env.growth ∧
          grec.acctime = some env.now)) := by
  constructor
  · intro hmatch
    exact add_graph_fresh_eq env s file fd hfd hmatch
  · intro hmatch
    refine ⟨import_result env file fd s, add_graph_run env s file fd hfd hmatch himp,
      ?_, ?_, ?_, ?_⟩
    · exact alookup_cons_self (new_graph_table (drop_stale env file s)) ⟨fd.header, fd.rows⟩
        (drop_stale env file s).graphs
    · intro info hinfo g hg hgt
      show alookup g
          ((new_graph_table (drop_stale env file s), (⟨fd.header, fd.rows⟩ : GraphData)) ::
            (drop_stale env file s).graphs) = none
      rw [alookup_cons_ne g (new_graph_table (drop_stale env file s)) _ _ (Ne.symm hgt)]
      simp only [drop_stale, hinfo, hg]
      exact alookup_graphs_drop_graph_self g s
    · exact alookup_set_file_info (env.realpath file) fd.size fd.modtime
        (new_graph_table (drop_stale env file s)) (drop_stale env file s).fileinfo
    · obtain ⟨grec, h1, h2, h3, h4⟩ :=
        alookup_set_graph_info (new_graph_table (drop_stale env file s)) fd.header
          ((create_graph_table env (new_graph_table (drop_stale env file s)) fd
              (drop_stale env file s)).dbsize - (drop_stale env file s).dbsize) env.now
          (drop_stale env file s).graphinfo
      have hD : (create_graph_table env (new_graph_table (drop_stale env file s)) fd
          (drop_stale env file s)).dbsize - (drop_stale env file s).dbsize = env.growth := by
        show (drop_stale env file s).dbsize + env.growth - (drop_stale env file s).dbsize =
          env.growth
        omega
      rw [hD] at h3
      exact ⟨grec, h1, h2, h3, h4⟩

/-- C2: when the native bulk-import path fails with one of the exceptions the
except clause of add_graph catches (engine not available, engine rejected the
input), add_graph falls back on the parsed-insert path and the native failure
does not reach the caller: with a working parsed-insert path the import
completes and produces the imported table; only a failure of the
parsed-insert path itself propagates. -/
theorem add_graph_fallback_spec (env : Env) (s : StoreState) (file : String) (fd : FileData)
    (hfd : getFileData env file = some fd)
    (hmatch : fileinfo_matches env s file fd = false)
    (hnat : env.native ≠ .ok) :
    (env.csv = .ok →
      add_graph env file s = .ok (import_result env file fd s) ∧
      alookup (new_graph_table (drop_stale env file s)) (import_result env file fd s).graphs =
        some ⟨fd.header, fd.rows⟩) ∧
    (env.csv = .err → add_graph env file s = .error .csvImportError) := by
  constructor
  · intro hcsv
    refine ⟨add_graph_run env s file fd hfd hmatch (Or.inr hcsv), ?_⟩
    exact alookup_cons_self _ _ _
  · intro hcsv
    unfold add_graph
    rw [has_graph_eq env s file fd hfd, hmatch]
    cases hnat2 : env.native with
    | ok => exact absurd hnat2 hnat
    | engineNotAvailable =>
        simp only [hfd, hcsv]
    | engineRejectedInput =>
        simp only [hfd, hcsv]

/-- C5: when the file is already imported and unchanged (the recorded size
and modtime match the file), running add_graph again returns the state
unchanged: the fileinfo table, the graphinfo table and all graph tables are
exactly as before, so in particular no record is mutated at all (not even
the access-time field). -/
theorem add_graph_fresh_noop (env : Env) (s : StoreState) (file : String) (fd : FileData)
    (hfd : getFileData env file = some fd)
    (hmatch : fileinfo_matches env s file fd = true) :
    ∃ s2, add_graph env file s = .ok s2 ∧ s2.fileinfo = s.fileinfo ∧
      s2.graphinfo = s.graphinfo ∧ s2.graphs = s.graphs :=
  ⟨s, add_graph_fresh_eq env s file fd hfd hmatch, rfl, rfl, rfl⟩

/-- Concrete file data for the witness runs: a 100-byte file with
modification time 555 holding one edge row. -/
def fdW : FileData :=
  ⟨100, 555, ["node1", "label", "node2", "id"], [["Hans", "loves", "Molly", "e11"]]⟩

/-- A concrete environment: data.tsv exists with the data above, both import
paths succeed, the clock reads 999 and an import grows the database by 42
bytes. -/
def envW : Env :=
  { realpath := fun p => p, files := [("data.tsv", fdW)], now := 999, growth := 42,
    native := .ok, csv := .ok }

/-- The same environment when the native import path raises KGTKException. -/
def envRejected : Env :=
  { envW with native := .engineRejectedInput }

/-- The empty freshly created store. -/
def stateEmpty : StoreState :=
  ⟨[], [], [], [], [], 0⟩

/-- The graphinfo record of graph_1 in the one-graph witness state. -/
def grecW : GraphInfoRec :=
  ⟨none, some ["node1", "label", "node2", "id"], some 42, some 999⟩

/-- A store state holding one imported, up-to-date graph table for
data.tsv and no indexes. -/
def stateOne : StoreState :=
  { graphs := [("graph_1", ⟨["node1", "label", "node2", "id"],
      [["Hans", "loves", "Molly", "e11"]]⟩)],
    indexes := [],
    analyzed := [],
    fileinfo := [("data.tsv", ⟨some 100, some 555, none, some "graph_1"⟩)],
    graphinfo := [("graph_1", grecW)],
    dbsize := 542 }

/-- C1 witness: the ensure specification evaluated on the empty store and
the concrete file, whose import succeeds natively. -/
theorem add_graph_ensure_spec_witness :
    (fileinfo_matches envW stateEmpty "data.tsv" fdW = true →
      add_graph envW "data.tsv" stateEmpty = .ok stateEmpty) ∧
    (fileinfo_matches envW stateEmpty "data.tsv" fdW = false →
      ∃ s2, add_graph envW "data.tsv" stateEmpty = .ok s2 ∧
        alookup (new_graph_table (drop_stale envW "data.tsv" stateEmpty)) s2.graphs =
          some ⟨fdW.header, fdW.rows⟩ ∧
        (∀ info, alookup (envW.realpath "data.tsv") stateEmpty.fileinfo = some info →
          ∀ g, info.graph = some g →
            g ≠ new_graph_table (drop_stale envW "data.tsv" stateEmpty) →
            alookup g s2.graphs = none) ∧
        (∃ rec, alookup (envW.realpath "data.tsv") s2.fileinfo = some rec ∧
          rec.size = some fdW.size ∧ rec.modtime = some fdW.modtime ∧
          rec.graph = some (new_graph_table (drop_stale envW "data.tsv" stateEmpty))) ∧
        (∃ grec, alookup (new_graph_table (drop_stale envW "data.tsv" stateEmpty))
            s2.graphinfo = some grec ∧
          grec.header = some fdW.header ∧ grec.size = some envW.growth ∧
          grec.acctime = some envW.now)) :=
  add_graph_ensure_spec envW stateEmpty "data.tsv" fdW (by decide) (Or.inl rfl)

/-- C2 witness: the fallback specification evaluated on the empty store with
a native path that raises and a parsed-insert path that works. -/
theorem add_graph_fallback_spec_witness :
    (envRejected.csv = .ok →
      add_graph envRejected "data.tsv" stateEmpty =
        .ok (import_result envRejected "data.tsv" fdW stateEmpty) ∧
      alookup (new_graph_table (drop_stale envRejected "data.tsv" stateEmpty))
          (import_result envRejected "data.tsv" fdW stateEmpty).graphs =
        some ⟨fdW.header, fdW.rows⟩) ∧
    (envRejected.csv = .err →
      add_graph envRejected "data.tsv" stateEmpty = .error .csvImportError) :=
  add_graph_fallback_spec envRejected stateEmpty "data.tsv" fdW (by decide) (by decide)
    (by decide)

/-- C5 witness: re-running add_graph on the up-to-date one-graph store
returns it unchanged. -/
theorem add_graph_fresh_noop_witness :
    ∃ s2, add_graph envW "data.tsv" stateOne = .ok s2 ∧
      s2.fileinfo = stateOne.fileinfo ∧ s2.graphinfo = stateOne.graphinfo ∧
      s2.graphs = stateOne.graphs :=
  add_graph_fresh_noop envW stateOne "data.tsv" fdW (by decide) (by decide)

/-- C3 witness: the index specification evaluated on the one-graph store,
where no index exists yet and index creation grows the database by 7
bytes. -/
theorem ensure_graph_index_spec_witness :
    (has_index stateOne "graph_1" "node1" = true →
      ensure_graph_index 7 "graph_1" "node1" stateOne = .ok stateOne) ∧
    (has_index stateOne "graph_1" "node1" = false →
      ∃ s2, ensure_graph_index 7 "graph_1" "node1" stateOne = .ok s2 ∧
        s2.indexes = (get_index_name "graph_1" "node1", "graph_1") :: stateOne.indexes ∧
        s2.analyzed = get_index_name "graph_1" "node1" :: stateOne.analyzed ∧
        s2.dbsize = stateOne.dbsize + 7 ∧
        alookup "graph_1" s2.graphinfo = some { grecW with size := some (42 + 7) }) :=
  ensure_graph_index_spec 7 "graph_1" "node1" stateOne grecW
    ["node1", "label", "node2", "id"] 42 (by decide) (by decide) (by decide) (by decide)
